import Mathlib

/-!
Shallow embedding of the Adafruit ESP32-S2 spectral firmware
(src/SpectralFW_v2.0.0/SpectralFW_v2.0.0.ino) and of the host dashboard's
serial read loop (src/spectral-dashboard/src/App.tsx), with theorems about
the auto-gain policy, the bounded gain-search loop, the telemetry record
assembly and the consumer's line-merge semantics.

Machine integers are modelled as Nat; channel values are the uint16 values
delivered by the sensor, the combined luminosity value is a uint32 modelled
as a Nat below 2^32 where that matters.  Sensor reads are inputs to the
model: a cycle receives the outcome of each hardware read as data.
-/

namespace SpectralFW

/-- SATURATION_THRESHOLD from the firmware (line 34). -/
def SATURATION_THRESHOLD : ℕ := 60000

/-- LOW_SIGNAL_THRESHOLD from the firmware (line 35). -/
def LOW_SIGNAL_THRESHOLD : ℕ := 1000

/-- NUM_GAINS from the firmware (line 52): eleven gain levels, indices 0..10. -/
def NUM_GAINS : ℕ := 11

/-- MAX_ATTEMPTS from the firmware loop (line 214). -/
def MAX_ATTEMPTS : ℕ := 5

/-- FW_VERSION string (line 25). -/
def FW_VERSION : String := "2.0.1"

/-- gainNames table (lines 56-57). -/
def gainNames : List String :=
  ["0.5x", "1x", "2x", "4x", "8x", "16x", "32x", "64x", "128x", "256x", "512x"]

/-- Boot-time gain index: int currentGainIndex = 5 (line 53). -/
def initialGainIndex : ℕ := 5

/-- The maxVal computation of adjustGainIfNeeded (lines 180-188): starts at 0
and takes each channel that exceeds the running maximum. -/
def maxChannelVal (channels : List ℕ) : ℕ :=
  channels.foldl (fun m c => if m < c then c else m) 0

/-- Result of adjustGainIfNeeded: the returned bool (true = gain changed,
re-read needed) together with the new value of currentGainIndex. -/
structure AdjustResult where
  changed : Bool
  gainIndex : ℕ
deriving DecidableEq

/-- adjustGainIfNeeded (lines 179-205), acting on the current gain index.
Saturation is checked first: maxVal at or above the threshold with a positive
index decrements; otherwise low signal with index below NUM_GAINS - 1
increments; otherwise nothing changes. -/
def adjustGainIfNeeded (channels : List ℕ) (g : ℕ) : AdjustResult :=
  let maxVal := maxChannelVal channels
  if SATURATION_THRESHOLD ≤ maxVal ∧ 0 < g then
    ⟨true, g - 1⟩
  else if maxVal < LOW_SIGNAL_THRESHOLD ∧ g < NUM_GAINS - 1 then
    ⟨true, g + 1⟩
  else
    ⟨false, g⟩

/-- Outcome of the spectral do-while loop of `loop` (lines 212-232):
the channel buffer, the asOk flag of the last read, the gain index after the
loop, the final value of the attempts counter, how many times
adjustGainIfNeeded was evaluated, and the gain index that was in effect
during the last read attempt (the gain the reported channels were measured
under). -/
structure SpectralResult where
  channels : List ℕ
  asOk : Bool
  gainIndex : ℕ
  attempts : ℕ
  adjustCalls : ℕ
  measGain : ℕ
deriving DecidableEq

/-- The do-while body and condition of lines 218-231.  `reads k` is the
outcome of the k-th readAllChannels call (none = read failed, some cs = the
eight channel values copied out).  Each iteration performs one read and
increments attempts; on a successful read adjustGainIfNeeded is evaluated
(possibly mutating the gain), and the loop repeats only when the gain
changed and `attempts < MAX_ATTEMPTS` still holds - the adjust evaluation
happens before the attempts bound is checked, exactly as in the source's
short-circuit condition `asOk && adjustGainIfNeeded(channels) && attempts <
MAX_ATTEMPTS`. -/
def gainSearchAux (reads : ℕ → Option (List ℕ)) (attempts : ℕ) (g : ℕ)
    (channels : List ℕ) (adjustCalls : ℕ) : SpectralResult :=
  match reads attempts with
  | none => ⟨channels, false, g, attempts + 1, adjustCalls, g⟩
  | some cs =>
      let r := adjustGainIfNeeded cs g
      if h : r.changed = true ∧ attempts + 1 < MAX_ATTEMPTS then
        gainSearchAux reads (attempts + 1) r.gainIndex cs (adjustCalls + 1)
      else
        ⟨cs, true, r.gainIndex, attempts + 1, adjustCalls + 1, g⟩
termination_by MAX_ATTEMPTS - attempts
decreasing_by
  have h2 := h.2
  simp only [MAX_ATTEMPTS] at h2 ⊢
  omega

/-- The spectral section of `loop` (lines 208-232): if the sensor was marked
ok at boot, run the bounded gain-search loop starting from attempts = 0 with
the zero-initialized channel buffer; otherwise the buffer stays zero, asOk
stays false and the gain index is untouched. -/
def spectralPhase (as7341Ready : Bool) (reads : ℕ → Option (List ℕ))
    (g : ℕ) : SpectralResult :=
  if as7341Ready then gainSearchAux reads 0 g (List.replicate 8 0) 0
  else ⟨List.replicate 8 0, false, g, 0, 0, g⟩

/-- Model of a C float as delivered by tsl.calculateLux: either a finite
value (carried as a rational) or one of the non-finite values NaN, +inf,
-inf.  The firmware only ever inspects such a value through isnan. -/
inductive FloatVal where
  | finite (q : ℚ)
  | nan
  | posInf
  | negInf
deriving DecidableEq

/-- isnan, as used on line 255. -/
def FloatVal.isnanB : FloatVal → Bool
  | .nan => true
  | _ => false

/-- A float is finite when it is neither NaN nor an infinity. -/
def FloatVal.isFiniteB : FloatVal → Bool
  | .finite _ => true
  | _ => false

/-- A value appearing in an emitted JSON record: unsigned integer, string,
float, or boolean (booleans occur only in the boot summary record). -/
inductive JVal where
  | nat (n : ℕ)
  | str (s : String)
  | flt (f : FloatVal)
  | bool (b : Bool)
deriving DecidableEq

/-- Association-list lookup by key, first match wins; the observable content
of an emitted record or of the dashboard's data object. -/
def lookupKey {α : Type} (k : String) : List (String × α) → Option α
  | [] => none
  | (a, v) :: rest => if k = a then some v else lookupKey k rest

/-- The per-cycle inputs `loop` receives from the hardware: the three boot
readiness flags, the outcome of each readAllChannels call, the LTR390 UV
reading, the TSL2591 combined 32-bit luminosity word, and the float that
tsl.calculateLux returns for this cycle. -/
structure CycleInput where
  as7341Ready : Bool
  ltr390Ready : Bool
  tsl2591Ready : Bool
  reads : ℕ → Option (List ℕ)
  uvReading : ℕ
  lumReading : ℕ
  luxReading : FloatVal

/-- What one execution of `loop` (lines 207-296) produces: the gain index
carried into the next cycle, the spectral-loop outcome, and the JSON record
written to serial, as an ordered key/value list. -/
structure CycleOutput where
  gainIndex : ℕ
  spectral : SpectralResult
  record : List (String × JVal)

/-- The F1..F8 block printed on lines 267-285 when asOk holds. -/
def fBlock (cs : List ℕ) : List (String × JVal) :=
  [("F1", JVal.nat (cs.getD 0 0)), ("F2", JVal.nat (cs.getD 1 0)),
   ("F3", JVal.nat (cs.getD 2 0)), ("F4", JVal.nat (cs.getD 3 0)),
   ("F5", JVal.nat (cs.getD 4 0)), ("F6", JVal.nat (cs.getD 5 0)),
   ("F7", JVal.nat (cs.getD 6 0)), ("F8", JVal.nat (cs.getD 7 0))]

/-- The lux value that reaches the frame (lines 248-256): 0.0 when the
TSL2591 is not ready; otherwise the calculateLux result, with NaN - and only
NaN - replaced by 0.0. -/
def emittedLux (inp : CycleInput) : FloatVal :=
  if inp.tsl2591Ready then
    (if inp.luxReading.isnanB then FloatVal.finite 0 else inp.luxReading)
  else FloatVal.finite 0

/-- One execution of `loop` (lines 207-296).  Spectral section as in
spectralPhase; `uv` is read only when the LTR390 is ready; `als` is declared
0 and never assigned (line 238); the TSL2591 section (lines 250-257) splits
the 32-bit luminosity word into ir = lum >> 16 and full = lum & 0xFFFF and
replaces a NaN lux by 0.0; the JSON record mirrors the Serial.print sequence
of lines 260-296. -/
def loopCycle (inp : CycleInput) (g0 : ℕ) : CycleOutput :=
  let sp := spectralPhase inp.as7341Ready inp.reads g0
  let uv : ℕ := if inp.ltr390Ready then inp.uvReading else 0
  let als : ℕ := 0
  let ir : ℕ := if inp.tsl2591Ready then inp.lumReading / 65536 else 0
  let full : ℕ := if inp.tsl2591Ready then inp.lumReading % 65536 else 0
  let lux : FloatVal := emittedLux inp
  { gainIndex := sp.gainIndex
    spectral := sp
    record :=
      [("fw", JVal.str FW_VERSION),
       ("gain", JVal.str (gainNames.getD sp.gainIndex ""))]
      ++ (if sp.asOk then fBlock sp.channels else [])
      ++ [("UV", JVal.nat uv), ("ALS", JVal.nat als),
          ("TSL_Lux", JVal.flt lux), ("TSL_IR", JVal.nat ir),
          ("TSL_Full", JVal.nat full)] }

/-- The three sensors, in the firmware's initialization order. -/
inductive SensorId where
  | spectralBank
  | uvAmbient
  | luminosity
deriving DecidableEq

/-- An observable event of the boot sequence: an initialize() call on one
sensor's capability (as7341.begin / ltr.begin / tsl.begin), or a JSON record
written to serial. -/
inductive BootEvent where
  | initCall (s : SensorId)
  | record (r : List (String × JVal))
deriving DecidableEq

/-- Uppercase-hex digit, as Arduino's Print::printNumber emits. -/
def hexDigitChar (n : ℕ) : Char :=
  if n < 10 then Char.ofNat (48 + n) else Char.ofNat (55 + n)

/-- Hex digit list of a positive number, most significant first. -/
def hexChars : ℕ → List Char
  | 0 => []
  | n + 1 => hexChars ((n + 1) / 16) ++ [hexDigitChar ((n + 1) % 16)]
decreasing_by exact Nat.div_lt_self (Nat.succ_pos n) (by norm_num)

/-- Serial.print(i, HEX) for the scanned address. -/
def hexStr (n : ℕ) : String :=
  if n = 0 then "0" else String.mk (hexChars n)

/-- scanI2C (lines 60-76): a starting record, one record per responding
address, and a count record.  `devices` is the list of addresses that
acknowledged, in scan order. -/
def scanI2C (devices : List ℕ) : List BootEvent :=
  [BootEvent.record [("i2c_scan", JVal.str "starting")]]
  ++ devices.map (fun a =>
      BootEvent.record [("i2c_device", JVal.str ("0x" ++ hexStr a))])
  ++ [BootEvent.record [("i2c_devices_found", JVal.nat devices.length)]]

/-- The "init_..." status string printed just before each sensor's begin(). -/
def initStatusName : SensorId → String
  | .spectralBank => "init_as7341"
  | .uvAmbient => "init_ltr390"
  | .luminosity => "init_tsl2591"

/-- The "..._ok" status string printed on a successful begin(). -/
def okName : SensorId → String
  | .spectralBank => "as7341_ok"
  | .uvAmbient => "ltr390_ok"
  | .luminosity => "tsl2591_ok"

/-- The "..._not_found" error string printed on a failed begin(). -/
def errName : SensorId → String
  | .spectralBank => "as7341_not_found"
  | .uvAmbient => "ltr390_not_found"
  | .luminosity => "tsl2591_not_found"

/-- The one record setup prints for a sensor's begin() outcome: a status
record on success, an error record on failure. -/
def sensorOutcome (s : SensorId) (ok : Bool) : BootEvent :=
  if ok then BootEvent.record [("status", JVal.str (okName s))]
  else BootEvent.record [("error", JVal.str (errName s))]

/-- The final readiness summary record (lines 165-171). -/
def readySummary (a l t : Bool) : BootEvent :=
  BootEvent.record [("status", JVal.str "ready"), ("as7341", JVal.bool a),
    ("ltr390", JVal.bool l), ("tsl2591", JVal.bool t)]

/-- Result of setup: its observable event sequence, the three readiness
flags, and the gain index it leaves behind. -/
structure BootResult where
  events : List BootEvent
  as7341Ready : Bool
  ltr390Ready : Bool
  tsl2591Ready : Bool
  gainIndex : ℕ

/-- The two records setup prints before the scan (lines 86 and 96). -/
def bootHeader : List BootEvent :=
  [BootEvent.record [("status", JVal.str "boot"), ("fw", JVal.str FW_VERSION)],
   BootEvent.record [("status", JVal.str "i2c_initialized")]]

/-- The sensor-initialization events of setup (lines 116-171): for each
sensor in the fixed order AS7341, LTR390, TSL2591, an init_... status
record, the begin() call, and the outcome record; then the readiness
summary. -/
def sensorInitEvents (asInit ltrInit tslInit : Bool) : List BootEvent :=
  [BootEvent.record [("status", JVal.str (initStatusName SensorId.spectralBank))],
   BootEvent.initCall SensorId.spectralBank,
   sensorOutcome SensorId.spectralBank asInit,
   BootEvent.record [("status", JVal.str (initStatusName SensorId.uvAmbient))],
   BootEvent.initCall SensorId.uvAmbient,
   sensorOutcome SensorId.uvAmbient ltrInit,
   BootEvent.record [("status", JVal.str (initStatusName SensorId.luminosity))],
   BootEvent.initCall SensorId.luminosity,
   sensorOutcome SensorId.luminosity tslInit,
   readySummary asInit ltrInit tslInit]

/-- setup (lines 78-176).  `devices` is the set of I2C addresses that
respond to the scan; `asInit`, `ltrInit`, `tslInit` are the return values of
the three begin() calls.  Each sensor is initialized once, in the order
AS7341, LTR390, TSL2591; a failure only stores false in the flag and prints
an error record; the sequence always continues to the final summary.  The
gain index is the boot value 5 (setGain is called on success but the index
itself is not changed). -/
def setup (devices : List ℕ) (asInit ltrInit tslInit : Bool) : BootResult where
  events := bootHeader ++ scanI2C devices ++ sensorInitEvents asInit ltrInit tslInit
  as7341Ready := asInit
  ltr390Ready := ltrInit
  tsl2591Ready := tslInit
  gainIndex := initialGainIndex

/-- The sensor of an initCall event, none for a record event. -/
def initCallOf : BootEvent → Option SensorId
  | .initCall s => some s
  | .record _ => none

/-! Dashboard consumer (src/spectral-dashboard/src/App.tsx, readLoop lines
78-107).  The state is the data object; a parsed line is spread over it, so
the line's fields override and all other fields keep their prior values. -/

/-- A value parsed from a telemetry line: number (JS number, modelled as a
rational), string, or boolean. -/
inductive PVal where
  | num (q : ℚ)
  | str (s : String)
  | bool (b : Bool)
deriving DecidableEq

/-- Drop leading JSON whitespace. -/
def skipWs (l : List Char) : List Char :=
  l.dropWhile (fun c => c.isWhitespace)

/-- Characters of a string literal after the opening quote, up to the
closing quote; fails on a missing close quote or an escape sequence (the
firmware's records never contain escapes). -/
def strChars : List Char → Option (List Char × List Char)
  | [] => none
  | c :: rest =>
      if c = '"' then some ([], rest)
      else if c = '\\' then none
      else (strChars rest).map (fun p => (c :: p.1, p.2))

/-- Leading decimal digits and the remainder. -/
def takeDigits (l : List Char) : List Char × List Char :=
  (l.takeWhile (fun c => c.isDigit), l.dropWhile (fun c => c.isDigit))

/-- Numeric value of a digit list. -/
def digitsToNat (ds : List Char) : ℕ :=
  ds.foldl (fun a c => 10 * a + (c.toNat - 48)) 0

/-- A JSON number: optional minus, integer digits, optional fraction.  The
value is the exact rational ±(ip + fp / 10^flen), built as one mkRat. -/
def parseNumber (l : List Char) : Option (ℚ × List Char) :=
  let signed := match l with
    | '-' :: r => (true, r)
    | _ => (false, l)
  let ip := takeDigits signed.2
  if ip.1 = [] then none
  else
    match ip.2 with
    | '.' :: r2 =>
        let fp := takeDigits r2
        if fp.1 = [] then none
        else
          let mant : ℤ :=
            ((digitsToNat ip.1 * 10 ^ fp.1.length + digitsToNat fp.1 : ℕ) : ℤ)
          some (mkRat (if signed.1 then -mant else mant)
            (10 ^ fp.1.length), fp.2)
    | r2 =>
        let mant : ℤ := ((digitsToNat ip.1 : ℕ) : ℤ)
        some (mkRat (if signed.1 then -mant else mant) 1, r2)

/-- A JSON scalar value: string, true, false, or number. -/
def parseValue (l : List Char) : Option (PVal × List Char) :=
  match skipWs l with
  | '"' :: rest => (strChars rest).map (fun p => (PVal.str (String.mk p.1), p.2))
  | 't' :: 'r' :: 'u' :: 'e' :: rest => some (PVal.bool true, rest)
  | 'f' :: 'a' :: 'l' :: 's' :: 'e' :: rest => some (PVal.bool false, rest)
  | l2 => (parseNumber l2).map (fun p => (PVal.num p.1, p.2))

/-- One or more `"key": value` members separated by commas; fuel bounds the
recursion by the input length. -/
def parseMembers : ℕ → List Char → Option (List (String × PVal) × List Char)
  | 0, _ => none
  | fuel + 1, l =>
      match skipWs l with
      | '"' :: rest =>
          match strChars rest with
          | none => none
          | some (kcs, r1) =>
              match skipWs r1 with
              | ':' :: r2 =>
                  match parseValue r2 with
                  | none => none
                  | some (v, r3) =>
                      match skipWs r3 with
                      | ',' :: r4 =>
                          (parseMembers fuel r4).map
                            (fun p => ((String.mk kcs, v) :: p.1, p.2))
                      | r4 => some ([(String.mk kcs, v)], r4)
              | _ => none
      | _ => none

/-- A complete flat JSON record: open brace, members (possibly none), close
brace, nothing but whitespace after.  This is JSON.parse restricted to the
§6 record language the firmware emits (flat objects of scalars, no escape
sequences, no nesting). -/
def parseFlatRecord (l : List Char) : Option (List (String × PVal)) :=
  match skipWs l with
  | '\x7b' :: r1 =>
      match skipWs r1 with
      | '\x7d' :: r2 => if skipWs r2 = [] then some [] else none
      | r1' =>
          match parseMembers (r1'.length + 1) r1' with
          | some (fields, r2) =>
              match skipWs r2 with
              | '\x7d' :: r3 => if skipWs r3 = [] then some fields else none
              | _ => none
          | none => none
  | _ => none

/-- JS String.prototype.trim on a character list. -/
def trimChars (l : List Char) : List Char :=
  ((l.dropWhile Char.isWhitespace).reverse.dropWhile Char.isWhitespace).reverse

/-- The consumer's data object: field name to last-known value. -/
abbrev ConsumerData := List (String × PVal)

/-- The per-line handling of readLoop (lines 92-100): trim the line, require
it to start with an open brace and end with a close brace, parse it; on
success spread the parsed fields over the previous state (parsed fields
first, so they override on lookup); on any failure leave the state
unchanged. -/
def processLine (st : ConsumerData) (line : List Char) : ConsumerData :=
  let clean := trimChars line
  if clean.head? = some '\x7b' ∧ clean.getLast? = some '\x7d' then
    match parseFlatRecord clean with
    | some obj => obj ++ st
    | none => st
  else st

/-- Consumer state across chunks: the data object plus the partial-line
buffer. -/
structure ConsumerState where
  data : ConsumerData
  buffer : List Char
deriving DecidableEq

/-- JS String.prototype.split on a newline: n separators yield n+1 parts. -/
def splitNl : List Char → List (List Char)
  | [] => [[]]
  | c :: cs =>
      if c = '\n' then [] :: splitNl cs
      else match splitNl cs with
        | [] => [[c]]
        | p :: ps => (c :: p) :: ps

/-- One reader.read() chunk (lines 89-100): append to the buffer, split on
newlines, keep the final partial line as the new buffer, process every
complete line. -/
def processChunk (s : ConsumerState) (chunk : List Char) : ConsumerState :=
  let parts := splitNl (s.buffer ++ chunk)
  { data := parts.dropLast.foldl processLine s.data
    buffer := parts.getLastD [] }

/-- The dashboard's initial data object (App.tsx lines 41-44). -/
def initialData : ConsumerData :=
  [("F1", PVal.num 0), ("F2", PVal.num 0), ("F3", PVal.num 0),
   ("F4", PVal.num 0), ("F5", PVal.num 0), ("F6", PVal.num 0),
   ("F7", PVal.num 0), ("F8", PVal.num 0), ("UV", PVal.num 0),
   ("ALS", PVal.num 0), ("TSL_Lux", PVal.num 0), ("TSL_IR", PVal.num 0),
   ("TSL_Full", PVal.num 0)]

/-- The whole read loop over a sequence of received chunks, from the initial
state with an empty buffer. -/
def readLoopModel (chunks : List (List Char)) : ConsumerState :=
  chunks.foldl processChunk ⟨initialData, []⟩

/-! Helper lemmas. -/

/-- The running-maximum fold either returns its accumulator or an element,
never goes below the accumulator, and dominates every element. -/
theorem foldl_max_spec (l : List ℕ) (a : ℕ) :
    (l.foldl (fun m c => if m < c then c else m) a = a
        ∨ l.foldl (fun m c => if m < c then c else m) a ∈ l)
    ∧ a ≤ l.foldl (fun m c => if m < c then c else m) a
    ∧ ∀ x ∈ l, x ≤ l.foldl (fun m c => if m < c then c else m) a := by
  induction l generalizing a with
  | nil => simp
  | cons c l ih =>
      have h := ih (if a < c then c else a)
      refine ⟨?_, ?_, ?_⟩
      · rcases h.1 with heq | hmem
        · rw [List.foldl_cons, heq]
          by_cases hac : a < c
          · simp [hac]
          · simp [hac]
        · right
          rw [List.foldl_cons]
          exact List.mem_cons_of_mem c hmem
      · rw [List.foldl_cons]
        refine le_trans ?_ h.2.1
        by_cases hac : a < c
        · rw [if_pos hac]
          exact Nat.le_of_lt hac
        · rw [if_neg hac]
      · intro x hx
        rw [List.foldl_cons]
        rcases List.mem_cons.mp hx with hxc | hxl
        · rw [hxc]
          refine le_trans ?_ h.2.1
          by_cases hac : a < c
          · rw [if_pos hac]
          · rw [if_neg hac]
            omega
        · exact h.2.2 x hxl

/-- adjustGainIfNeeded keeps the gain index at or below 10 when it starts
there. -/
theorem adjust_gain_le (cs : List ℕ) (g : ℕ) (hg : g ≤ 10) :
    (adjustGainIfNeeded cs g).gainIndex ≤ 10 := by
  unfold adjustGainIfNeeded
  dsimp only
  split_ifs with h1 h2 <;> simp [NUM_GAINS] at * <;> omega

/-- The bounded search preserves the gain-index range. -/
theorem gainSearchAux_gain_le (reads : ℕ → Option (List ℕ)) (a g : ℕ)
    (cs : List ℕ) (k : ℕ) (hg : g ≤ 10) :
    (gainSearchAux reads a g cs k).gainIndex ≤ 10 := by
  induction a, g, cs, k using gainSearchAux.induct reads with
  | case1 a g cs k h =>
      unfold gainSearchAux
      simp [h, hg]
  | case2 a g cs k cs2 h r hcond ih =>
      unfold gainSearchAux
      simp only [h]
      rw [dif_pos hcond]
      exact ih (adjust_gain_le cs2 g hg)
  | case3 a g cs k cs2 h r hcond =>
      unfold gainSearchAux
      simp only [h]
      rw [dif_neg hcond]
      exact adjust_gain_le cs2 g hg

/-! Claim theorems. -/

/-- C1: for an 8-channel reading and a gain index in [0,10], adjust with
maxVal the maximum of the channel values decrements the index by exactly 1
and reports Changed when maxVal ≥ 60000 and the index is positive; else
increments by exactly 1 and reports Changed when maxVal < 1000 and the index
is below 10; else (including the floor boundary maxVal ≥ 60000 at index 0
and the ceiling boundary maxVal < 1000 at index 10) reports Unchanged with
the index untouched. -/
theorem adjustGain_cases (channels : List ℕ) (g : ℕ)
    (hlen : channels.length = 8) (hg : g ≤ 10) :
    (maxChannelVal channels ∈ channels
        ∧ ∀ c ∈ channels, c ≤ maxChannelVal channels)
    ∧ (60000 ≤ maxChannelVal channels ∧ 0 < g →
        adjustGainIfNeeded channels g = ⟨true, g - 1⟩ ∧ (g - 1) + 1 = g)
    ∧ (¬(60000 ≤ maxChannelVal channels ∧ 0 < g) →
        maxChannelVal channels < 1000 ∧ g < 10 →
        adjustGainIfNeeded channels g = ⟨true, g + 1⟩)
    ∧ (¬(60000 ≤ maxChannelVal channels ∧ 0 < g) →
        ¬(maxChannelVal channels < 1000 ∧ g < 10) →
        adjustGainIfNeeded channels g = ⟨false, g⟩) := by
  have hmax := foldl_max_spec channels 0
  refine ⟨⟨?_, ?_⟩, ?_, ?_, ?_⟩
  · rcases hmax.1 with heq | hmem
    · rcases channels with _ | ⟨c0, rest⟩
      · simp at hlen
      · have hc0 := hmax.2.2 c0 (List.mem_cons_self c0 rest)
        rw [heq] at hc0
        have hc00 : c0 = 0 := Nat.le_zero.mp hc0
        show List.foldl (fun m c => if m < c then c else m) 0 (c0 :: rest)
          ∈ c0 :: rest
        rw [heq, ← hc00]
        exact List.mem_cons_self c0 rest
    · exact hmem
  · exact hmax.2.2
  · intro h
    unfold adjustGainIfNeeded SATURATION_THRESHOLD
    dsimp only
    rw [if_pos h]
    exact ⟨rfl, by omega⟩
  · intro h1 h2
    unfold adjustGainIfNeeded SATURATION_THRESHOLD LOW_SIGNAL_THRESHOLD NUM_GAINS
    dsimp only
    rw [if_neg h1, if_pos ⟨h2.1, by omega⟩]
  · intro h1 h2
    unfold adjustGainIfNeeded SATURATION_THRESHOLD LOW_SIGNAL_THRESHOLD NUM_GAINS
    dsimp only
    rw [if_neg h1, if_neg (fun hcon => h2 ⟨hcon.1, by omega⟩)]

/-- C1 instantiated: the saturation branch at the concrete reading of
spec scenario A (channel 3 reads 60500) with gain index 5. -/
theorem adjustGain_cases_witness :
    adjustGainIfNeeded [100, 200, 60500, 300, 400, 500, 600, 700] 5
      = ⟨true, 4⟩ := by
  have h := adjustGain_cases [100, 200, 60500, 300, 400, 500, 600, 700] 5
    (by decide) (by decide)
  exact (h.2.1 (by decide)).1

/-- C2: per adjust call the gain index moves by exactly one when Changed is
reported and stays put when Unchanged is reported, and remains in [0,10]
(it is a Nat, so it is never below 0); the [0,10] range is preserved by each
full acquisition cycle and holds for the index setup leaves behind. -/
theorem gainIndex_invariant :
    (∀ channels g, g ≤ 10 →
        ((adjustGainIfNeeded channels g).changed = true →
            (adjustGainIfNeeded channels g).gainIndex = g + 1
              ∨ (adjustGainIfNeeded channels g).gainIndex + 1 = g)
        ∧ ((adjustGainIfNeeded channels g).changed = false →
            (adjustGainIfNeeded channels g).gainIndex = g)
        ∧ (adjustGainIfNeeded channels g).gainIndex ≤ 10)
    ∧ (∀ inp g0, g0 ≤ 10 → (loopCycle inp g0).gainIndex ≤ 10)
    ∧ (∀ devices a l t, (setup devices a l t).gainIndex ≤ 10) := by
  refine ⟨?_, ?_, ?_⟩
  · intro channels g hg
    unfold adjustGainIfNeeded
    dsimp only
    split_ifs with h1 h2 <;> simp [NUM_GAINS] at * <;> omega
  · intro inp g0 hg
    show (spectralPhase inp.as7341Ready inp.reads g0).gainIndex ≤ 10
    unfold spectralPhase
    split
    · exact gainSearchAux_gain_le inp.reads 0 g0 (List.replicate 8 0) 0 hg
    · exact hg
  · intro devices a l t
    show initialGainIndex ≤ 10
    decide

/-- C2 instantiated: a full cycle from gain index 5 with five consecutive
low-signal readings keeps the index in range. -/
theorem gainIndex_invariant_witness :
    (5 : ℕ) ≤ 10
    ∧ (loopCycle ⟨true, true, true, fun _ => some (List.replicate 8 500),
        7, 131072, FloatVal.finite 1⟩ 5).gainIndex ≤ 10 :=
  ⟨by decide,
   gainIndex_invariant.2.1 ⟨true, true, true,
     fun _ => some (List.replicate 8 500), 7, 131072, FloatVal.finite 1⟩ 5
     (by decide)⟩

/-- A cycle input whose spectral reads always succeed with every channel at
500, below the low-signal threshold. -/
def lowSignalInput : CycleInput :=
  ⟨true, false, false, fun _ => some (List.replicate 8 500), 0, 0,
    FloatVal.finite 0⟩

/-- A cycle input with the spectral sensor failed at boot, the LTR390 and
TSL2591 ready, combined luminosity word 65536 and a NaN lux. -/
def failedSpectralInput : CycleInput :=
  ⟨false, true, true, fun _ => none, 7, 65536, FloatVal.nan⟩

/-- Like failedSpectralInput, but calculateLux returns +infinity. -/
def infLuxInput : CycleInput :=
  ⟨false, true, true, fun _ => none, 7, 65536, FloatVal.posInf⟩

/-- Bounds of the do-while search: starting below the attempt cap, the
attempts counter strictly grows, never passes MAX_ATTEMPTS, the number of
adjust evaluations is bounded by the iterations performed, and when the loop
exits with asOk the channels are exactly the ones delivered by the last read
performed. -/
theorem gainSearchAux_bounds (reads : ℕ → Option (List ℕ)) (a g : ℕ)
    (cs : List ℕ) (k : ℕ) (ha : a < MAX_ATTEMPTS) :
    a + 1 ≤ (gainSearchAux reads a g cs k).attempts
    ∧ (gainSearchAux reads a g cs k).attempts ≤ MAX_ATTEMPTS
    ∧ (gainSearchAux reads a g cs k).adjustCalls
        ≤ k + ((gainSearchAux reads a g cs k).attempts - a)
    ∧ ((gainSearchAux reads a g cs k).asOk = true →
        reads ((gainSearchAux reads a g cs k).attempts - 1)
          = some (gainSearchAux reads a g cs k).channels) := by
  induction a, g, cs, k using gainSearchAux.induct reads with
  | case1 a g cs k h =>
      unfold gainSearchAux
      simp only [h]
      refine ⟨le_refl _, ha, by omega, ?_⟩
      intro hcon
      simp at hcon
  | case2 a g cs k cs2 h r hcond ih =>
      have hr : r = adjustGainIfNeeded cs2 g := rfl
      have ihh := ih hcond.2
      rw [hr] at ihh hcond
      unfold gainSearchAux
      simp only [h]
      rw [dif_pos hcond]
      exact ⟨by omega, ihh.2.1, by omega, ihh.2.2.2⟩
  | case3 a g cs k cs2 h r hcond =>
      have hr : r = adjustGainIfNeeded cs2 g := rfl
      rw [hr] at hcond
      unfold gainSearchAux
      simp only [h]
      rw [dif_neg hcond]
      dsimp only
      exact ⟨le_refl _, ha, by omega, fun _ => by simpa using h⟩

/-- C3: in a cycle where the spectral sensor is ready, the gain-search loop
is a total function (it terminates) performing at most 5 read attempts and
at most 5 adjust evaluations, and when it exits with a successful read the
channels it hands to the frame are the ones delivered by the last (possibly
5th) read: that reading is accepted regardless of its saturation or
low-signal state. -/
theorem gainSearch_bounded (reads : ℕ → Option (List ℕ)) (g : ℕ) :
    (spectralPhase true reads g).attempts ≤ 5
    ∧ (spectralPhase true reads g).adjustCalls
        ≤ (spectralPhase true reads g).attempts
    ∧ (spectralPhase true reads g).adjustCalls ≤ 5
    ∧ ((spectralPhase true reads g).asOk = true →
        reads ((spectralPhase true reads g).attempts - 1)
          = some (spectralPhase true reads g).channels) := by
  have h := gainSearchAux_bounds reads 0 g (List.replicate 8 0) 0
    (by decide)
  have haux : spectralPhase true reads g
      = gainSearchAux reads 0 g (List.replicate 8 0) 0 := by
    unfold spectralPhase
    rw [if_pos rfl]
  rw [haux]
  have h5 : MAX_ATTEMPTS = 5 := rfl
  exact ⟨by omega, by omega, by omega, h.2.2.2⟩

/-- C3 instantiated: with permanently low-signal reads from gain index 0 the
loop stops after exactly 5 attempts and the frame takes the 5th reading. -/
theorem gainSearch_bounded_witness :
    (spectralPhase true lowSignalInput.reads 0).attempts ≤ 5
    ∧ lowSignalInput.reads
        ((spectralPhase true lowSignalInput.reads 0).attempts - 1)
      = some (spectralPhase true lowSignalInput.reads 0).channels := by
  have h := gainSearch_bounded lowSignalInput.reads 0
  refine ⟨h.1, h.2.2.2 ?_⟩
  simp [spectralPhase, gainSearchAux, adjustGainIfNeeded, MAX_ATTEMPTS,
    lowSignalInput, SATURATION_THRESHOLD, LOW_SIGNAL_THRESHOLD, NUM_GAINS,
    maxChannelVal]

/-- C10: the loop condition evaluates adjustGainIfNeeded before checking the
attempt bound, so on the 5th attempt the gain can still move with no
re-read: starting from gain index 0 with every read below the low-signal
threshold, the cycle performs 5 reads and 5 adjust evaluations, ends with
asOk, reports gain "16x" (index 5) in its record, while the reported
channels were measured with gain index 4 ("8x"). -/
theorem fifth_attempt_gain_mismatch :
    (loopCycle lowSignalInput 0).spectral
        = ⟨List.replicate 8 500, true, 5, 5, 5, 4⟩
    ∧ lookupKey "gain" (loopCycle lowSignalInput 0).record
        = some (JVal.str "16x")
    ∧ gainNames.getD (loopCycle lowSignalInput 0).spectral.measGain ""
        = "8x"
    ∧ (loopCycle lowSignalInput 0).gainIndex
        ≠ (loopCycle lowSignalInput 0).spectral.measGain := by
  have hsp : (loopCycle lowSignalInput 0).spectral
      = ⟨List.replicate 8 500, true, 5, 5, 5, 4⟩ := by
    show spectralPhase true lowSignalInput.reads 0
      = ⟨List.replicate 8 500, true, 5, 5, 5, 4⟩
    simp [spectralPhase, gainSearchAux, adjustGainIfNeeded, MAX_ATTEMPTS,
      lowSignalInput, SATURATION_THRESHOLD, LOW_SIGNAL_THRESHOLD, NUM_GAINS,
      maxChannelVal]
  have hg : (loopCycle lowSignalInput 0).gainIndex
      = (loopCycle lowSignalInput 0).spectral.gainIndex := rfl
  refine ⟨hsp, ?_, ?_, ?_⟩
  · show lookupKey "gain"
        ([("fw", JVal.str FW_VERSION),
          ("gain", JVal.str (gainNames.getD
            (loopCycle lowSignalInput 0).spectral.gainIndex ""))]
         ++ _ ++ _) = some (JVal.str "16x")
    rw [hsp]
    simp [lookupKey, gainNames]
  · rw [hsp]
    decide
  · rw [hg, hsp]
    decide

/-- The spectral field names of the wire record. -/
def fKeys : List String := ["F1", "F2", "F3", "F4", "F5", "F6", "F7", "F8"]

/-- A cycle with a non-ready spectral sensor leaves the gain index alone. -/
theorem loopCycle_gain_of_notReady (inp : CycleInput) (g0 : ℕ)
    (h : inp.as7341Ready = false) : (loopCycle inp g0).gainIndex = g0 := by
  show (spectralPhase inp.as7341Ready inp.reads g0).gainIndex = g0
  rw [h]
  rfl

/-- C5: a cycle's record carries the fields F1..F8 exactly when that cycle's
final spectral read succeeded; when the spectral sensor was marked failed at
boot the cycle never enters the spectral section, so asOk stays false, every
record omits F1..F8, and the gain index is carried through any number of
cycles untouched. -/
theorem spectral_fields_presence (inp : CycleInput) (g : ℕ) :
    (∀ k ∈ fKeys,
        (lookupKey k (loopCycle inp g).record).isSome
          = (loopCycle inp g).spectral.asOk)
    ∧ (inp.as7341Ready = false →
        (loopCycle inp g).gainIndex = g
        ∧ (loopCycle inp g).spectral.asOk = false
        ∧ ∀ k ∈ fKeys, lookupKey k (loopCycle inp g).record = none)
    ∧ (∀ inps : List CycleInput, (∀ i ∈ inps, i.as7341Ready = false) →
        inps.foldl (fun gAcc i => (loopCycle i gAcc).gainIndex) g = g) := by
  refine ⟨?_, ?_, ?_⟩
  · intro k hk
    simp only [loopCycle]
    cases hOk : (spectralPhase inp.as7341Ready inp.reads g).asOk
    · fin_cases hk <;> simp [lookupKey, fBlock, hOk]
    · fin_cases hk <;> simp [lookupKey, fBlock, hOk]
  · intro h
    have hOk : (loopCycle inp g).spectral.asOk = false := by
      show (spectralPhase inp.as7341Ready inp.reads g).asOk = false
      rw [h]
      rfl
    refine ⟨loopCycle_gain_of_notReady inp g h, hOk, ?_⟩
    intro k hk
    have hOk2 : (spectralPhase inp.as7341Ready inp.reads g).asOk = false := hOk
    simp only [loopCycle]
    fin_cases hk <;> simp [lookupKey, fBlock, hOk2]
  · intro inps hall
    induction inps generalizing g with
    | nil => rfl
    | cons i rest ih =>
        rw [List.foldl_cons,
          loopCycle_gain_of_notReady i g (hall i (List.mem_cons_self i rest))]
        exact ih g fun j hj => hall j (List.mem_cons_of_mem i hj)

/-- C5 instantiated: with the spectral sensor failed at boot, F1 is absent
from the record and the gain index survives two cycles unchanged. -/
theorem spectral_fields_presence_witness :
    lookupKey "F1" (loopCycle failedSpectralInput 5).record = none
    ∧ [failedSpectralInput, failedSpectralInput].foldl
        (fun gAcc i => (loopCycle i gAcc).gainIndex) 5 = 5 :=
  ⟨((spectral_fields_presence failedSpectralInput 5).2.1 rfl).2.2 "F1"
      (by decide),
   (spectral_fields_presence failedSpectralInput 5).2.2
      [failedSpectralInput, failedSpectralInput]
      (by intro i hi; fin_cases hi <;> rfl)⟩

/-- C9: the ALS field of every emitted record is the constant 0 - the
firmware declares `als = 0`, never reads the ambient-light channel (the
LTR390 is committed to UV mode for the whole process lifetime), and prints
it in every cycle regardless of any readiness flag. -/
theorem als_always_zero (inp : CycleInput) (g : ℕ) :
    lookupKey "ALS" (loopCycle inp g).record = some (JVal.nat 0) := by
  simp only [loopCycle]
  cases hOk : (spectralPhase inp.as7341Ready inp.reads g).asOk <;>
    simp [lookupKey, fBlock, hOk]

/-- C4 counterexample: an infinite lux value passes the isnan check
untouched and reaches the frame, so the emitted record can carry a
non-finite lux; the claim that any non-finite value is sanitized to 0.0
fails at this input. -/
theorem lux_inf_reaches_frame_cex :
    lookupKey "TSL_Lux" (loopCycle infLuxInput 5).record
        = some (JVal.flt FloatVal.posInf)
    ∧ FloatVal.isFiniteB FloatVal.posInf = false := by decide

/-- C4 amended: the lux placed in the frame is never NaN - a NaN
calculateLux result is replaced by 0.0 and a non-NaN result is passed
through - but only NaN is sanitized (±infinity is not). -/
theorem lux_nan_sanitized (inp : CycleInput) (g : ℕ) :
    lookupKey "TSL_Lux" (loopCycle inp g).record
        = some (JVal.flt (emittedLux inp))
    ∧ (emittedLux inp).isnanB = false
    ∧ (inp.tsl2591Ready = true → inp.luxReading.isnanB = true →
        emittedLux inp = FloatVal.finite 0)
    ∧ (inp.tsl2591Ready = true → inp.luxReading.isnanB = false →
        emittedLux inp = inp.luxReading) := by
  refine ⟨?_, ?_, ?_, ?_⟩
  · simp only [loopCycle]
    cases hOk : (spectralPhase inp.as7341Ready inp.reads g).asOk <;>
      simp [lookupKey, fBlock, hOk]
  · unfold emittedLux
    split_ifs with h1 h2
    · rfl
    · cases hv : inp.luxReading <;> simp_all [FloatVal.isnanB]
    · rfl
  · intro ht hn
    unfold emittedLux
    rw [if_pos ht, if_pos hn]
  · intro ht hn
    unfold emittedLux
    rw [if_pos ht, if_neg]
    simp [hn]

/-- C4 amended, instantiated: a NaN lux with the TSL2591 ready is emitted
as 0.0. -/
theorem lux_nan_sanitized_witness :
    failedSpectralInput.luxReading.isnanB = true
    ∧ emittedLux failedSpectralInput = FloatVal.finite 0 :=
  ⟨by decide,
   (lux_nan_sanitized failedSpectralInput 5).2.2.1 rfl rfl⟩

/-- C8 counterexample: with combined luminosity word 65536 the emitted
record has TSL_IR = 1 and TSL_Full = 0 - the infrared count is the HIGH
half and the full-spectrum count the LOW half - so the claimed composition
full * 2^16 + ir yields 1, not the original 65536. -/
theorem tsl_split_cex :
    lookupKey "TSL_IR" (loopCycle failedSpectralInput 5).record
        = some (JVal.nat 1)
    ∧ lookupKey "TSL_Full" (loopCycle failedSpectralInput 5).record
        = some (JVal.nat 0)
    ∧ failedSpectralInput.lumReading = 65536
    ∧ 0 * 65536 + 1 ≠ 65536 := by decide

/-- C8 amended: when the TSL2591 is ready, the frame's TSL_IR field is the
high unsigned 16-bit half (lum >> 16) and TSL_Full the low half
(lum & 0xFFFF) of the 32-bit combined word, both below 2^16, and
ir * 2^16 + full recombines to the original word. -/
theorem tsl_split_halves (inp : CycleInput) (g : ℕ)
    (ht : inp.tsl2591Ready = true) (hlum : inp.lumReading < 4294967296) :
    lookupKey "TSL_IR" (loopCycle inp g).record
        = some (JVal.nat (inp.lumReading / 65536))
    ∧ lookupKey "TSL_Full" (loopCycle inp g).record
        = some (JVal.nat (inp.lumReading % 65536))
    ∧ inp.lumReading / 65536 < 65536
    ∧ inp.lumReading % 65536 < 65536
    ∧ (inp.lumReading / 65536) * 65536 + inp.lumReading % 65536
        = inp.lumReading := by
  refine ⟨?_, ?_, by omega, by omega, by omega⟩
  · simp only [loopCycle]
    cases hOk : (spectralPhase inp.as7341Ready inp.reads g).asOk <;>
      simp [lookupKey, fBlock, hOk, ht]
  · simp only [loopCycle]
    cases hOk : (spectralPhase inp.as7341Ready inp.reads g).asOk <;>
      simp [lookupKey, fBlock, hOk, ht]

/-- C8 amended, instantiated at the combined word 65536. -/
theorem tsl_split_halves_witness :
    failedSpectralInput.tsl2591Ready = true
    ∧ (failedSpectralInput.lumReading / 65536) * 65536
        + failedSpectralInput.lumReading % 65536
        = failedSpectralInput.lumReading :=
  ⟨by decide,
   (tsl_split_halves failedSpectralInput 5 rfl (by decide)).2.2.2.2⟩

/-- The readiness flag setup records for a sensor. -/
def flagOf (b : BootResult) : SensorId → Bool
  | .spectralBank => b.as7341Ready
  | .uvAmbient => b.ltr390Ready
  | .luminosity => b.tsl2591Ready

/-- The I2C scan performs no initialize() call. -/
theorem scanI2C_no_init (devices : List ℕ) :
    (scanI2C devices).filterMap initCallOf = [] := by
  simp only [scanI2C, List.filterMap_append, List.filterMap_map]
  simp [initCallOf, Function.comp]

/-- The I2C scan emits no sensor outcome record. -/
theorem scanI2C_count_outcome (devices : List ℕ) (s : SensorId) (b : Bool) :
    (scanI2C devices).count (sensorOutcome s b) = 0 := by
  rw [List.count_eq_zero]
  intro hmem
  cases s <;> cases b <;>
    simp [scanI2C, sensorOutcome, okName, errName] at hmem

/-- C6: for any scan outcome and any combination of begin() results, setup
performs initialize() exactly once per sensor, in the fixed order AS7341
(SpectralBank), LTR390 (UvAmbient), TSL2591 (Luminosity); every failure is
non-fatal (the flag of each sensor records exactly its own begin() result,
independent of the others); for each sensor exactly one outcome record is
emitted, matching its readiness flag; and the last emitted record is the
summary of the three readiness flags. -/
theorem boot_sequence_contract (devices : List ℕ) (a l t : Bool) :
    ((setup devices a l t).events.filterMap initCallOf
        = [SensorId.spectralBank, SensorId.uvAmbient, SensorId.luminosity])
    ∧ flagOf (setup devices a l t) SensorId.spectralBank = a
    ∧ flagOf (setup devices a l t) SensorId.uvAmbient = l
    ∧ flagOf (setup devices a l t) SensorId.luminosity = t
    ∧ (∀ s : SensorId,
        (setup devices a l t).events.count
            (sensorOutcome s (flagOf (setup devices a l t) s)) = 1
        ∧ (setup devices a l t).events.count
            (sensorOutcome s (!flagOf (setup devices a l t) s)) = 0)
    ∧ (setup devices a l t).events.getLast? = some (readySummary a l t) := by
  have hev : (setup devices a l t).events
      = bootHeader ++ scanI2C devices ++ sensorInitEvents a l t := rfl
  refine ⟨?_, rfl, rfl, rfl, ?_, ?_⟩
  · rw [hev]
    simp only [List.filterMap_append, scanI2C_no_init]
    cases a <;> cases l <;> cases t <;> decide
  · intro s
    constructor
    all_goals
      rw [hev]
      simp only [List.count_append, scanI2C_count_outcome]
      cases s <;>
        simp only [
          show flagOf (setup devices a l t) SensorId.spectralBank = a from rfl,
          show flagOf (setup devices a l t) SensorId.uvAmbient = l from rfl,
          show flagOf (setup devices a l t) SensorId.luminosity = t from rfl] <;>
        cases a <;> cases l <;> cases t <;> decide
  · rw [hev, List.append_assoc,
      List.getLast?_append_of_ne_nil _ (by simp [sensorInitEvents]),
      List.getLast?_append_of_ne_nil _ (by simp [sensorInitEvents])]
    cases a <;> cases l <;> cases t <;> decide

/-- The first line of spec scenario E. -/
def exLineF1 : List Char := ("\x7b\"F1\":10\x7d").toList

/-- The second line of spec scenario E. -/
def exLineUV : List Char := ("\x7b\"UV\":5\x7d").toList

/-- Lookup over a concatenation prefers the left list: merging a parsed
object in front of the previous state makes its fields override and leaves
every other field at its prior value. -/
theorem lookupKey_append {α : Type} (k : String) (xs ys : List (String × α)) :
    lookupKey k (xs ++ ys)
      = (lookupKey k xs).orElse (fun _ => lookupKey k ys) := by
  induction xs with
  | nil => rfl
  | cons p rest ih =>
      cases p with
      | mk a v =>
          simp only [List.cons_append, lookupKey]
          by_cases hk : k = a
          · rw [if_pos hk, if_pos hk]
            rfl
          · rw [if_neg hk, if_neg hk]
            exact ih

/-- Splitting a newline-terminated line yields the line and one empty
part. -/
theorem splitNl_line (l : List Char) (h : '\n' ∉ l) :
    splitNl (l ++ ['\n']) = [l, []] := by
  induction l with
  | nil => rfl
  | cons c rest ih =>
      have hc : ¬c = '\n' := by
        intro hh
        subst hh
        exact h (List.mem_cons_self _ _)
      have hr : '\n' ∉ rest := fun hm => h (List.mem_cons_of_mem c hm)
      simp only [List.cons_append, splitNl, List.append_eq, if_neg hc, ih hr]

/-- Feeding one newline-terminated line as a chunk to an empty buffer
processes exactly that line and leaves the buffer empty. -/
theorem processChunk_line (d : ConsumerData) (l : List Char)
    (h : '\n' ∉ l) :
    processChunk ⟨d, []⟩ (l ++ ['\n']) = ⟨processLine d l, []⟩ := by
  unfold processChunk
  simp only [List.nil_append, splitNl_line l h]
  rfl

/-- The chunked read loop over newline-terminated lines is the fold of the
per-line handler. -/
theorem readLoop_lines_fold (lines : List (List Char)) (d : ConsumerData)
    (h : ∀ l ∈ lines, '\n' ∉ l) :
    (lines.map (fun l => l ++ ['\n'])).foldl processChunk ⟨d, []⟩
      = ⟨lines.foldl processLine d, []⟩ := by
  induction lines generalizing d with
  | nil => rfl
  | cons l rest ih =>
      rw [List.map_cons, List.foldl_cons, List.foldl_cons,
        processChunk_line d l (h l (List.mem_cons_self l rest))]
      exact ih (processLine d l) fun j hj => h j (List.mem_cons_of_mem l hj)

/-- C7: the consumer's read loop treats each received line independently -
over newline-terminated chunks its state is the per-line fold; a line that
fails the record shape check, or passes it but does not parse, leaves the
state unchanged; a line that parses merges only its present fields, every
other field keeping its prior value; and scenario E holds: receiving the
F1 line then the UV line yields a state with F1 = 10 and UV = 5. -/
theorem readLoop_line_merge (lines : List (List Char))
    (hnl : ∀ l ∈ lines, '\n' ∉ l) :
    ((readLoopModel (lines.map (fun l => l ++ ['\n']))).data
        = lines.foldl processLine initialData)
    ∧ (∀ st line, ¬((trimChars line).head? = some '\x7b'
          ∧ (trimChars line).getLast? = some '\x7d') →
        processLine st line = st)
    ∧ (∀ st line, parseFlatRecord (trimChars line) = none →
        processLine st line = st)
    ∧ (∀ st line obj,
        ((trimChars line).head? = some '\x7b'
          ∧ (trimChars line).getLast? = some '\x7d') →
        parseFlatRecord (trimChars line) = some obj →
        ∀ k, lookupKey k (processLine st line)
          = (lookupKey k obj).orElse (fun _ => lookupKey k st))
    ∧ (lookupKey "F1" (readLoopModel
            [exLineF1 ++ ['\n'], exLineUV ++ ['\n']]).data
          = some (PVal.num 10)
        ∧ lookupKey "UV" (readLoopModel
            [exLineF1 ++ ['\n'], exLineUV ++ ['\n']]).data
          = some (PVal.num 5)) := by
  refine ⟨?_, ?_, ?_, ?_, ?_⟩
  · show ((lines.map (fun l => l ++ ['\n'])).foldl processChunk
        ⟨initialData, []⟩).data = lines.foldl processLine initialData
    rw [readLoop_lines_fold lines initialData hnl]
  · intro st line hbr
    simp only [processLine]
    rw [if_neg hbr]
  · intro st line hnone
    simp only [processLine]
    split
    · rw [hnone]
    · rfl
  · intro st line obj hbr hsome k
    simp only [processLine]
    rw [if_pos hbr, hsome]
    exact lookupKey_append k obj st
  · decide

/-- C7 instantiated at the two scenario-E lines. -/
theorem readLoop_line_merge_witness :
    (readLoopModel [exLineF1 ++ ['\n'], exLineUV ++ ['\n']]).data
      = [exLineF1, exLineUV].foldl processLine initialData := by
  have h := readLoop_line_merge [exLineF1, exLineUV] (by decide)
  exact h.1

end SpectralFW
